import Mathlib

/-!
Verification of the metric reconciliation and scoring engine of the
OpenSODA top-300 governance dashboard (build_long_tables.py and
build_health_and_alerts.py), via a shallow embedding in Lean 4.

Machine floats are modelled as `Option ℚ`: `some q` is an ordinary value,
`none` is the NaN / null sentinel (pandas-style missing data).  Parsed JSON
documents are modelled by the inductive type `Json` below; Python dicts are
association lists with distinct keys, and `setKey` reproduces Python's
`d[k] = v` update semantics (replace in place, append at the end when new).
-/

/-- A parsed JSON-like document, as produced by `json.load`.  `nan` is a
float NaN (Python's json module accepts the `NaN` literal). -/
inductive Json where
  | null
  | bool (b : Bool)
  | num (x : ℚ)
  | nan
  | str (s : String)
  | arr (items : List Json)
  | obj (fields : List (String × Json))

/-- First binding for a key in an association list: Python `d.get(k)`
semantics on a dict (keys are unique, so first match is the match). -/
def getKey {α : Type} : List (String × α) → String → Option α
  | [], _ => none
  | p :: rest, k => if p.1 = k then some p.2 else getKey rest k

/-- Python `d.get(k, default)`: the stored value whenever the key is
PRESENT (even if that value is `None`), otherwise the default. -/
def getJD (fs : List (String × Json)) (k : String) (d : Json) : Json :=
  match getKey fs k with
  | some v => v
  | none => d

/-- Python dict assignment `d[k] = v`: replace the binding in place if the
key exists, else append it. -/
def setKey (fs : List (String × Option ℚ)) (k : String) (v : Option ℚ) :
    List (String × Option ℚ) :=
  match fs with
  | [] => [(k, v)]
  | p :: rest => if p.1 = k then (k, v) :: rest else p :: setKey rest k v

/-- Python truthiness of a JSON value (`None`, `0`, `""`, `[]`, `{}`,
`False` are falsy; NaN is truthy). -/
def truthy : Json → Bool
  | .null => false
  | .bool b => b
  | .num x => decide (x ≠ 0)
  | .nan => true
  | .str s => decide (s ≠ "")
  | .arr l => !l.isEmpty
  | .obj fs => !fs.isEmpty

/-- Python `a or b`: `a` when truthy, else `b`. -/
def pyOr (a b : Json) : Json := if truthy a then a else b

/-- `isinstance(v, (int, float))` — Python `bool` is an `int` subclass,
and a NaN float is still a float. -/
def isNumericJson : Json → Bool
  | .num _ => true
  | .nan => true
  | .bool _ => true
  | _ => false

/-- `float(v)` for a numeric JSON value; `none` is NaN. -/
def numVal : Json → Option ℚ
  | .num x => some x
  | .bool b => some (if b then 1 else 0)
  | _ => none

/-- Preference order of `pick_scalar` on statistics objects. -/
def statKeys : List String := ["median", "p50", "mean", "avg", "value"]

/-- `for key in [...]: if key in v and isinstance(v[key], (int, float)):
return float(v[key])` — first PRESENT numeric field wins (a NaN float
field is numeric and stops the scan, yielding NaN). -/
def pickFromStats (fs : List (String × Json)) : List String → Option ℚ
  | [] => none
  | k :: rest =>
    match getKey fs k with
    | some v => if isNumericJson v then numVal v else pickFromStats fs rest
    | none => pickFromStats fs rest

/-- `pick_scalar` from build_long_tables.py: a direct number (not NaN)
is returned as a float; a statistics object is scanned in preference
order median, p50, mean, avg, value; anything else is NaN. -/
def pick_scalar : Json → Option ℚ
  | .num x => some x
  | .bool b => some (if b then 1 else 0)
  | .obj fs => pickFromStats fs statKeys
  | _ => none

/-- The month-key test of `extract_month_series`:
`isinstance(k, str) and len(k) >= 7 and k[4] == "-"`. -/
def monthKeyOk (k : String) : Bool :=
  decide (7 ≤ k.toList.length ∧ k.toList.get? 4 = some '-')

/-- `k[:7]`. -/
def take7 (k : String) : String := String.mk (k.toList.take 7)

/-- The `{"data": ...}` unwrap step of `extract_month_series`: replace the
document by its "data" field when that field exists and is a dict or list. -/
def unwrapData (j : Json) : Json :=
  match j with
  | .obj fs =>
    match getKey fs "data" with
    | some (.obj gs) => .obj gs
    | some (.arr l) => .arr l
    | _ => j
  | _ => j

/-- The dict branch of `extract_month_series`. -/
def extractFromDict (fs : List (String × Json)) : List (String × Option ℚ) :=
  fs.foldl
    (fun out kv =>
      if monthKeyOk kv.1 then setKey out (take7 kv.1) (pick_scalar kv.2) else out)
    []

/-- `it.get("month") or it.get("date") or it.get("time") or it.get("key")`. -/
def entryMonth (fs : List (String × Json)) : Json :=
  pyOr (getJD fs "month" .null)
    (pyOr (getJD fs "date" .null) (pyOr (getJD fs "time" .null) (getJD fs "key" .null)))

/-- `it.get("value", it.get("val", it.get("data")))`: keyed on PRESENCE,
so a present null "value" field shadows a numeric "val" field. -/
def entryValue (fs : List (String × Json)) : Json :=
  getJD fs "value" (getJD fs "val" (getJD fs "data" .null))

/-- The list branch of `extract_month_series`. -/
def extractFromList (items : List Json) : List (String × Option ℚ) :=
  items.foldl
    (fun out it =>
      match it with
      | .obj fs =>
        match entryMonth fs with
        | .str m =>
          if monthKeyOk m then setKey out (take7 m) (pick_scalar (entryValue fs)) else out
        | _ => out
      | _ => out)
    []

/-- `extract_month_series` from build_long_tables.py.  A missing or
unparsable file is modelled by `Json.null` (load_json returns None). -/
def extract_month_series (j : Json) : List (String × Option ℚ) :=
  match unwrapData j with
  | .obj fs => extractFromDict fs
  | .arr items => extractFromList items
  | _ => []

/-- The month pattern the specification claims (`\d{4}-\d{2}` on the first
seven characters); the code's actual test is the weaker `monthKeyOk`. -/
def digitAt (cs : List Char) (i : Nat) : Bool :=
  match cs.get? i with
  | some c => c.isDigit
  | none => false

/-- First seven characters match `\d{4}-\d{2}`. -/
def monthPattern (k : String) : Bool :=
  decide (7 ≤ k.toList.length) && digitAt k.toList 0 && digitAt k.toList 1 &&
    digitAt k.toList 2 && digitAt k.toList 3 &&
    (k.toList.get? 4 == some '-') && digitAt k.toList 5 && digitAt k.toList 6

/-!
## Percentile Normalizer

`percentile_rank` from build_health_and_alerts.py: negate when lower is
better, then pandas `Series.rank(pct=True)` — average rank over ties,
NaN entries ignored (and left NaN), divided by the count of non-NaN values.
-/

/-- pandas average rank of the value `x` among the non-null values `vals`:
(number strictly below) + (number tied, x included, plus one) / 2. -/
def avgRank (vals : List ℚ) (x : ℚ) : ℚ :=
  (vals.countP (fun y => decide (y < x)) : ℚ) +
    ((vals.countP (fun y => decide (y = x)) : ℚ) + 1) / 2

/-- pandas `Series.rank(pct=True)`: NaN stays NaN, a value gets its average
rank divided by the number of non-NaN values. -/
def rankPct (s : List (Option ℚ)) : List (Option ℚ) :=
  let vals := s.filterMap id
  s.map (Option.map (fun x => avgRank vals x / (vals.length : ℚ)))

/-- `percentile_rank` from build_health_and_alerts.py. -/
def percentile_rank (s : List (Option ℚ)) (higher_is_better : Bool) :
    List (Option ℚ) :=
  let s2 := if higher_is_better then s else s.map (Option.map (fun x => -x))
  rankPct s2

/-!
## Long-Table Builder

`build_ops_long` from build_long_tables.py: per repository, one Month
Series per metric file, the set-union of their months, one row per month
with NaN for the columns whose series lack it, then a final sort by
(repo_full, month).  Sorting is by code points, as Python's `sorted` and
pandas `sort_values` compare strings.
-/

/-- One repository directory: org / repo names and its parsed JSON files
(filename → document).  A missing or unparsable file simply has no entry
(load_json returns None, modelled as `Json.null`). -/
structure RepoDir where
  org : String
  repo : String
  files : List (String × Json)

/-- One row of an operational long table: the four identification columns
plus one (column-name, value) cell per metric of the group. -/
structure OpsRow where
  repo_full : String
  org : String
  repo : String
  month : String
  cols : List (String × Option ℚ)

/-- Column-name → file-name binding for `kind="issue"`. -/
def issueFiles : List (String × String) :=
  [("issues_new", "issues_new.json"), ("issues_closed", "issues_closed.json"),
   ("issue_response_time", "issue_response_time.json"),
   ("issue_resolution_duration", "issue_resolution_duration.json")]

/-- Column-name → file-name binding for the PR kind. -/
def prFiles : List (String × String) :=
  [("change_requests", "change_requests.json"),
   ("change_request_response_time", "change_request_response_time.json"),
   ("change_request_resolution_duration", "change_request_resolution_duration.json")]

/-- `if kind == "issue": ... else: ...` -/
def filesFor (kind : String) : List (String × String) :=
  if kind = "issue" then issueFiles else prFiles

/-- Code-point lexicographic comparison of character lists (Python string
ordering). -/
def charListLt : List Char → List Char → Bool
  | [], [] => false
  | [], _ :: _ => true
  | _ :: _, [] => false
  | a :: as, b :: bs =>
    if a.toNat < b.toNat then true
    else if a.toNat = b.toNat then charListLt as bs
    else false

def strLtB (a b : String) : Bool := charListLt a.toList b.toList

def strLeB (a b : String) : Bool := !(strLtB b a)

/-- Insertion step of `sorted(...)` over month strings. -/
def insertStr (m : String) : List String → List String
  | [] => [m]
  | x :: xs => if strLeB m x then m :: x :: xs else x :: insertStr m xs

/-- `sorted(...)` on strings. -/
def sortStrings : List String → List String
  | [] => []
  | x :: xs => insertStr x (sortStrings xs)

/-- `series_map`: one extracted Month Series per column of the group. -/
def seriesMapFor (d : RepoDir) (files : List (String × String)) :
    List (String × List (String × Option ℚ)) :=
  files.map (fun cf => (cf.1, extract_month_series ((getKey d.files cf.2).getD .null)))

/-- `sorted(months)` where `months` is the set-union of the months of the
per-column series. -/
def monthsOf (sm : List (String × List (String × Option ℚ))) : List String :=
  sortStrings ((sm.flatMap (fun cs => cs.2.map Prod.fst)).dedup)

/-- The per-repository block of rows: one row per month of the union, each
column filled from its series, `series_map[col].get(month, np.nan)`. -/
def build_ops_rows (d : RepoDir) (files : List (String × String)) : List OpsRow :=
  let sm := seriesMapFor d files
  (monthsOf sm).map (fun month =>
    { repo_full := d.org ++ "/" ++ d.repo, org := d.org, repo := d.repo,
      month := month,
      cols := sm.map (fun cs => (cs.1, (getKey cs.2 month).getD none)) })

/-- `df.sort_values(["repo_full", "month"])` key order. -/
def rowLE (a b : OpsRow) : Bool :=
  strLtB a.repo_full b.repo_full ||
    (decide (a.repo_full = b.repo_full) && strLeB a.month b.month)

def insertRow (r : OpsRow) : List OpsRow → List OpsRow
  | [] => [r]
  | x :: xs => if rowLE r x then r :: x :: xs else x :: insertRow r xs

def sortRows : List OpsRow → List OpsRow
  | [] => []
  | x :: xs => insertRow x (sortRows xs)

/-- `build_ops_long` from build_long_tables.py: per-repository row blocks
concatenated, then sorted by (repo_full, month). -/
def build_ops_long (repos : List RepoDir) (kind : String) : List OpsRow :=
  sortRows (repos.flatMap (fun d => build_ops_rows d (filesFor kind)))

/-!
## Snapshot Assembler

`build_end_snapshot` from build_health_and_alerts.py: anchor on the
end-month openrank rows, left-join the start-month openrank, compute the
delta, then left-join the end-month issue columns (with derived backlog)
and the end-month PR columns.
-/

/-- A row of openrank_long.csv. -/
structure ORRow where
  repo_full : String
  org : String
  repo : String
  month : String
  openrank : Option ℚ

/-- A row of issue_ops_long.csv. -/
structure IssueRow where
  repo_full : String
  org : String
  repo : String
  month : String
  issues_new : Option ℚ
  issues_closed : Option ℚ
  issue_response_time : Option ℚ
  issue_resolution_duration : Option ℚ

/-- A row of pr_ops_long.csv. -/
structure PRRow where
  repo_full : String
  org : String
  repo : String
  month : String
  change_requests : Option ℚ
  change_request_response_time : Option ℚ
  change_request_resolution_duration : Option ℚ

/-- pandas NaN-propagating subtraction of nullable floats. -/
def osub : Option ℚ → Option ℚ → Option ℚ
  | some a, some b => some (a - b)
  | _, _ => none

/-- pandas `left.merge(right, on=key, how="left")`: every left row is kept;
a left row is repeated once per matching right row, and an unmatched left
row gets an all-NaN right side (`none`). -/
def leftMerge {α β γ : Type} (left : List α) (right : List β)
    (keyl : α → String) (keyr : β → String) (comb : α → Option β → γ) :
    List γ :=
  left.flatMap (fun l =>
    match right.filter (fun r => decide (keyr r = keyl l)) with
    | [] => [comb l none]
    | ms => ms.map (fun r => comb l (some r)))

/-- The openrank column keyed by repository at one month:
`openrank_long[openrank_long["month"] == m][["repo_full","openrank"]]`. -/
def endORPairs (openrank_long : List ORRow) (m : String) :
    List (String × Option ℚ) :=
  (openrank_long.filter (fun r => decide (r.month = m))).map
    (fun r => (r.repo_full, r.openrank))

/-- The anchor merged with the start-month openrank, plus the delta. -/
structure Snap1 where
  repo_full : String
  openrank_end : Option ℚ
  openrank_start : Option ℚ
  openrank_delta : Option ℚ

/-- `end_or.merge(st_or, on="repo_full", how="left")` followed by
`snap["openrank_delta"] = snap["openrank_end"] - snap["openrank_start"]`. -/
def snap1Of (openrank_long : List ORRow) (end_month start_month : String) :
    List Snap1 :=
  leftMerge (endORPairs openrank_long end_month)
    (endORPairs openrank_long start_month) Prod.fst Prod.fst
    (fun e so =>
      { repo_full := e.1, openrank_end := e.2,
        openrank_start := (so.map Prod.snd).join,
        openrank_delta := osub e.2 ((so.map Prod.snd).join) })

/-- End-month issue columns with the derived backlog,
`iss_end["backlog_end"] = iss_end["issues_new"] - iss_end["issues_closed"]`. -/
structure IssEnd where
  repo_full : String
  issue_response_time : Option ℚ
  issue_resolution_duration : Option ℚ
  backlog_end : Option ℚ

def issEndOf (issue_ops_long : List IssueRow) (end_month : String) :
    List IssEnd :=
  (issue_ops_long.filter (fun r => decide (r.month = end_month))).map
    (fun r =>
      { repo_full := r.repo_full,
        issue_response_time := r.issue_response_time,
        issue_resolution_duration := r.issue_resolution_duration,
        backlog_end := osub r.issues_new r.issues_closed })

/-- End-month PR columns. -/
structure PREnd where
  repo_full : String
  change_requests : Option ℚ
  change_request_response_time : Option ℚ
  change_request_resolution_duration : Option ℚ

def prEndOf (pr_ops_long : List PRRow) (end_month : String) : List PREnd :=
  (pr_ops_long.filter (fun r => decide (r.month = end_month))).map
    (fun r =>
      { repo_full := r.repo_full,
        change_requests := r.change_requests,
        change_request_response_time := r.change_request_response_time,
        change_request_resolution_duration :=
          r.change_request_resolution_duration })

/-- A row of the end-month snapshot (health_score inputs). -/
structure SnapRow where
  repo_full : String
  openrank_end : Option ℚ
  openrank_start : Option ℚ
  openrank_delta : Option ℚ
  issue_response_time : Option ℚ
  issue_resolution_duration : Option ℚ
  backlog_end : Option ℚ
  change_requests : Option ℚ
  change_request_response_time : Option ℚ
  change_request_resolution_duration : Option ℚ

/-- Assemble the final snapshot row out of the two join results. -/
def snapRowOf (a : Snap1 × Option IssEnd) (po : Option PREnd) : SnapRow :=
  { repo_full := a.1.repo_full,
    openrank_end := a.1.openrank_end,
    openrank_start := a.1.openrank_start,
    openrank_delta := a.1.openrank_delta,
    issue_response_time := a.2.bind (fun i => i.issue_response_time),
    issue_resolution_duration := a.2.bind (fun i => i.issue_resolution_duration),
    backlog_end := a.2.bind (fun i => i.backlog_end),
    change_requests := po.bind (fun p => p.change_requests),
    change_request_response_time :=
      po.bind (fun p => p.change_request_response_time),
    change_request_resolution_duration :=
      po.bind (fun p => p.change_request_resolution_duration) }

/-- `build_end_snapshot` from build_health_and_alerts.py:
`snap.merge(iss_end, on="repo_full", how="left").merge(pr_end, ...)`. -/
def build_end_snapshot (openrank_long : List ORRow)
    (issue_ops_long : List IssueRow) (pr_ops_long : List PRRow)
    (end_month start_month : String) : List SnapRow :=
  leftMerge
    (leftMerge (snap1Of openrank_long end_month start_month)
      (issEndOf issue_ops_long end_month)
      (fun a => a.repo_full) (fun b => b.repo_full) (fun a io => (a, io)))
    (prEndOf pr_ops_long end_month)
    (fun a => a.1.repo_full) (fun b => b.repo_full) snapRowOf

/-!
## Health Scorer and Alert Rule Engine

`compute_health_score`, `health_level` and `build_alerts` from
build_health_and_alerts.py.  Arithmetic on nullable floats propagates NaN
(`none`); `Series.round(2)` is numpy round-half-to-even; comparing NaN with
a number is Python-`False`, which drives `health_level` on a null score.
-/

/-- pandas NaN-propagating addition. -/
def oadd : Option ℚ → Option ℚ → Option ℚ
  | some a, some b => some (a + b)
  | _, _ => none

/-- Scalar multiple of a nullable float (NaN stays NaN). -/
def omul (c : ℚ) : Option ℚ → Option ℚ :=
  Option.map (fun x => c * x)

/-- numpy round-half-to-even to an integer. -/
def roundHalfEven (q : ℚ) : ℤ :=
  if q - ⌊q⌋ < 1/2 then ⌊q⌋
  else if 1/2 < q - ⌊q⌋ then ⌊q⌋ + 1
  else if ⌊q⌋ % 2 = 0 then ⌊q⌋ else ⌊q⌋ + 1

/-- `Series.round(2)`. -/
def round2 (q : ℚ) : ℚ := (roundHalfEven (q * 100) : ℚ) / 100

/-- Python `score >= c` where `score` may be NaN: NaN comparisons are
False. -/
def geNaN (score : Option ℚ) (c : ℚ) : Bool :=
  match score with
  | some x => decide (c ≤ x)
  | none => false

/-- `health_level` from build_health_and_alerts.py. -/
def health_level (score : Option ℚ) : String :=
  if geNaN score 70 then "绿" else if geNaN score 45 then "黄" else "红"

/-- A row of health_score_end.csv (normalized columns, score, level). -/
structure ScoredRow where
  repo_full : String
  n_openrank_end : Option ℚ
  n_openrank_delta : Option ℚ
  n_issue_response_time : Option ℚ
  n_backlog_end : Option ℚ
  n_issue_resolution_duration : Option ℚ
  n_pr_response_time : Option ℚ
  n_pr_resolution_duration : Option ℚ
  health_score : Option ℚ
  health_level : String
  deriving DecidableEq

/-- `compute_health_score` from build_health_and_alerts.py: percentile
normalization per column over the snapshot, weighted sum times 100,
rounded to 2 digits, then the colour level. -/
def compute_health_score (snap : List SnapRow) : List ScoredRow :=
  let nOE := percentile_rank (snap.map (fun s => s.openrank_end)) true
  let nOD := percentile_rank (snap.map (fun s => s.openrank_delta)) true
  let nIRT := percentile_rank (snap.map (fun s => s.issue_response_time)) false
  let nBL := percentile_rank (snap.map (fun s => s.backlog_end)) false
  let nIRD := percentile_rank (snap.map (fun s => s.issue_resolution_duration)) false
  let nPRT := percentile_rank
    (snap.map (fun s => s.change_request_response_time)) false
  let nPRD := percentile_rank
    (snap.map (fun s => s.change_request_resolution_duration)) false
  (List.finRange snap.length).map (fun i =>
    let g : List (Option ℚ) → Option ℚ := fun l => (l.get? i.val).getD none
    let score := Option.map round2 (omul 100 (oadd (omul (35/100) (g nOE))
      (oadd (omul (20/100) (g nOD)) (oadd (omul (15/100) (g nIRT))
      (oadd (omul (10/100) (g nBL)) (oadd (omul (10/100) (g nIRD))
      (oadd (omul (5/100) (g nPRT)) (omul (5/100) (g nPRD)))))))))
    { repo_full := (snap.get i).repo_full,
      n_openrank_end := g nOE, n_openrank_delta := g nOD,
      n_issue_response_time := g nIRT, n_backlog_end := g nBL,
      n_issue_resolution_duration := g nIRD, n_pr_response_time := g nPRT,
      n_pr_resolution_duration := g nPRD,
      health_score := score,
      health_level := health_level score })

/-- The end-month issue table merged with the end-month openrank column
plus the derived backlog, as prepared inside `build_alerts`. -/
structure IssM where
  repo_full : String
  month : String
  issues_new : Option ℚ
  issues_closed : Option ℚ
  issue_response_time : Option ℚ
  issue_resolution_duration : Option ℚ
  openrank_end : Option ℚ
  backlog_end : Option ℚ
  deriving DecidableEq

def mergedIss (issue_ops_long : List IssueRow) (openrank_long : List ORRow)
    (end_month : String) : List IssM :=
  leftMerge (issue_ops_long.filter (fun r => decide (r.month = end_month)))
    (endORPairs openrank_long end_month) (fun r => r.repo_full) Prod.fst
    (fun r o =>
      { repo_full := r.repo_full, month := r.month,
        issues_new := r.issues_new, issues_closed := r.issues_closed,
        issue_response_time := r.issue_response_time,
        issue_resolution_duration := r.issue_resolution_duration,
        openrank_end := (o.map Prod.snd).join,
        backlog_end := osub r.issues_new r.issues_closed })

/-- A row of alerts_end.csv. -/
structure AlertRow where
  repo_full : String
  month : String
  alert_type : String
  severity : String
  metric : String
  value : ℚ
  threshold : ℚ
  reason : String
  deriving DecidableEq

/-- Rule 1 of `build_alerts`: slow first response (applied only to rows
whose issue_response_time survives dropna). -/
def ruleResponse (end_month : String) (r : IssM) : List AlertRow :=
  match r.issue_response_time with
  | some v =>
    if 14 < v then
      [{ repo_full := r.repo_full, month := end_month,
         alert_type := "Issue首响过慢", severity := "红",
         metric := "issue_response_time", value := v, threshold := 14,
         reason := "首响时间>14天，建议建立 triage 机制" }]
    else if 7 < v then
      [{ repo_full := r.repo_full, month := end_month,
         alert_type := "Issue首响偏慢", severity := "黄",
         metric := "issue_response_time", value := v, threshold := 7,
         reason := "首响时间>7天，建议增加值班/标签分流" }]
    else []
  | none => []

/-- Rule 2 of `build_alerts`: backlog growth (applied only to rows whose
backlog_end survives dropna). -/
def ruleBacklog (end_month : String) (r : IssM) : List AlertRow :=
  match r.backlog_end with
  | some v =>
    if 50 < v then
      [{ repo_full := r.repo_full, month := end_month,
         alert_type := "Issue积压严重", severity := "红",
         metric := "backlog_end", value := v, threshold := 50,
         reason := "新增-关闭>50，积压上升" }]
    else if 10 < v then
      [{ repo_full := r.repo_full, month := end_month,
         alert_type := "Issue积压上升", severity := "黄",
         metric := "backlog_end", value := v, threshold := 10,
         reason := "新增>关闭，积压开始累积" }]
    else []
  | none => []

/-- `build_alerts` from build_health_and_alerts.py: rule 1 over the
dropna(issue_response_time) rows, then rule 2 over the dropna(backlog_end)
rows. -/
def build_alerts (issue_ops_long : List IssueRow) (openrank_long : List ORRow)
    (end_month : String) : List AlertRow :=
  ((mergedIss issue_ops_long openrank_long end_month).filter
      (fun r => r.issue_response_time.isSome)).flatMap (ruleResponse end_month) ++
    ((mergedIss issue_ops_long openrank_long end_month).filter
      (fun r => r.backlog_end.isSome)).flatMap (ruleBacklog end_month)

lemma monthPattern_facts {m : String} (h : monthPattern m = true) :
    monthKeyOk m = true ∧ m ≠ "data" ∧ m ≠ "" := by
  refine ⟨?_, ?_, ?_⟩
  · simp only [monthPattern, Bool.and_eq_true, beq_iff_eq, decide_eq_true_eq] at h
    simp only [monthKeyOk, decide_eq_true_eq]
    exact ⟨h.1.1.1.1.1.1.1, h.1.1.2⟩
  · rintro rfl; exact absurd h (by decide)
  · rintro rfl; exact absurd h (by decide)

lemma keys_setKey (l : List (String × Option ℚ)) (k : String) (v : Option ℚ) :
    (setKey l k v).map Prod.fst =
      if k ∈ l.map Prod.fst then l.map Prod.fst else l.map Prod.fst ++ [k] := by
  induction l with
  | nil => simp [setKey]
  | cons p rest ih =>
    obtain ⟨k0, v0⟩ := p
    by_cases hp : k0 = k
    · simp [setKey, hp]
    · have hp' : ¬ (k = k0) := fun h => hp h.symm
      by_cases hk : k ∈ rest.map Prod.fst
      · simp [setKey, hp, ih, hk, hp']
      · simp [setKey, hp, ih, hk, hp']

lemma mem_keys_setKey (l : List (String × Option ℚ)) (k : String) (v : Option ℚ)
    (k' : String) :
    k' ∈ (setKey l k v).map Prod.fst ↔ k' ∈ l.map Prod.fst ∨ k' = k := by
  rw [keys_setKey]
  by_cases hk : k ∈ l.map Prod.fst
  · rw [if_pos hk]
    constructor
    · exact Or.inl
    · rintro (h | rfl)
      · exact h
      · exact hk
  · rw [if_neg hk]
    simp

lemma mem_keys_iff (l : List (String × Option ℚ)) (k' : String) :
    k' ∈ l.map Prod.fst ↔ ∃ w, (k', w) ∈ l := by
  rw [List.mem_map]
  constructor
  · rintro ⟨p, hp, rfl⟩
    exact ⟨p.2, by simpa using hp⟩
  · rintro ⟨w, hw⟩
    exact ⟨(k', w), hw, rfl⟩

lemma mem_keys_extract_go (fs : List (String × Json)) (acc : List (String × Option ℚ))
    (k' : String) :
    (k' ∈ (fs.foldl
        (fun out kv =>
          if monthKeyOk kv.1 then setKey out (take7 kv.1) (pick_scalar kv.2) else out)
        acc).map Prod.fst)
      ↔ k' ∈ acc.map Prod.fst ∨
        ∃ kv, kv ∈ fs ∧ monthKeyOk kv.1 = true ∧ k' = take7 kv.1 := by
  induction fs generalizing acc with
  | nil => simp
  | cons kv rest ih =>
    simp only [List.foldl_cons]
    by_cases hm : monthKeyOk kv.1 = true
    · rw [if_pos hm, ih, mem_keys_setKey]
      simp only [List.mem_cons]
      constructor
      · rintro ((h | hk) | ⟨kv', h1, h2, h3⟩)
        · exact Or.inl h
        · exact Or.inr ⟨kv, Or.inl rfl, hm, hk⟩
        · exact Or.inr ⟨kv', Or.inr h1, h2, h3⟩
      · rintro (h | ⟨kv', h1 | h1, h2, h3⟩)
        · exact Or.inl (Or.inl h)
        · subst h1; exact Or.inl (Or.inr h3)
        · exact Or.inr ⟨kv', h1, h2, h3⟩
    · rw [if_neg hm, ih]
      simp only [List.mem_cons]
      constructor
      · rintro (h | ⟨kv', h1, h2, h3⟩)
        · exact Or.inl h
        · exact Or.inr ⟨kv', Or.inr h1, h2, h3⟩
      · rintro (h | ⟨kv', h1 | h1, h2, h3⟩)
        · exact Or.inl h
        · subst h1; exact absurd h2 hm
        · exact Or.inr ⟨kv', h1, h2, h3⟩

/-- C1: the four raw-shape variants of a month/value datum are extracted to
the same singleton Month Series `{m[:7] : float(x)}`: flat mapping, wrapped
mapping, event sequence, and statistics-object value (with no median/p50). -/
theorem C1_shape_equivalence (m : String) (x : ℚ) (h : monthPattern m = true) :
    extract_month_series (.obj [(m, .num x)]) = [(take7 m, some x)] ∧
    extract_month_series (.obj [("data", .obj [(m, .num x)])]) = [(take7 m, some x)] ∧
    extract_month_series (.arr [.obj [("month", .str m), ("value", .num x)]])
      = [(take7 m, some x)] ∧
    extract_month_series (.obj [(m, .obj [("mean", .num x)])]) = [(take7 m, some x)] := by
  obtain ⟨hk, hd, he⟩ := monthPattern_facts h
  have hd' : ¬ (m = "data") := hd
  refine ⟨?_, ?_, ?_, ?_⟩
  · simp [extract_month_series, unwrapData, getKey, hd', extractFromDict, hk,
      pick_scalar, setKey]
  · simp [extract_month_series, unwrapData, getKey, extractFromDict, hk,
      pick_scalar, setKey]
  · simp [extract_month_series, unwrapData, extractFromList, entryMonth, entryValue,
      getJD, getKey, pyOr, truthy, he, hk, pick_scalar, setKey]
  · simp [extract_month_series, unwrapData, getKey, hd', extractFromDict, hk,
      pick_scalar, pickFromStats, statKeys, setKey, isNumericJson, numVal]

theorem C1_witness :
    monthPattern "2021-03" = true ∧
    (extract_month_series (.obj [("2021-03", .num 5)]) = [("2021-03", some 5)] ∧
     extract_month_series (.obj [("data", .obj [("2021-03", .num 5)])])
       = [("2021-03", some 5)] ∧
     extract_month_series (.arr [.obj [("month", .str "2021-03"), ("value", .num 5)]])
       = [("2021-03", some 5)] ∧
     extract_month_series (.obj [("2021-03", .obj [("mean", .num 5)])])
       = [("2021-03", some 5)]) := by
  have ht : take7 "2021-03" = "2021-03" := by decide
  have h := C1_shape_equivalence "2021-03" 5 (by decide)
  rw [ht] at h
  exact ⟨by decide, h⟩

/-- C7 fails on the code: the key filter is only `len(k) >= 7 and k[4] == "-"`,
with no digit check, so `{"abcd-efg": 5}` is kept and stored under "abcd-ef"
although it does not match `\d{4}-\d{2}`. -/
theorem C7_counterexample :
    extract_month_series (.obj [("abcd-efg", .num 5)]) = [("abcd-ef", some 5)] ∧
    monthPattern "abcd-efg" = false := by decide

/-- C7 amended: for a mapping input left unchanged by the data-unwrap, the
output has an entry (stored under the first seven characters of the source
key) exactly for the keys that are strings of length at least 7 whose
character at index 4 is a dash — the `\d{4}-\d{2}` digit constraint of the
original claim is not checked by the code. -/
theorem C7_month_key_filter (fs : List (String × Json))
    (hu : unwrapData (.obj fs) = .obj fs) :
    (∀ k v, (k, v) ∈ fs → monthKeyOk k = true →
      ∃ w, (take7 k, w) ∈ extract_month_series (.obj fs)) ∧
    (∀ k' w, (k', w) ∈ extract_month_series (.obj fs) →
      ∃ k v, (k, v) ∈ fs ∧ monthKeyOk k = true ∧ k' = take7 k) := by
  have he : extract_month_series (.obj fs) = extractFromDict fs := by
    unfold extract_month_series
    rw [hu]
  constructor
  · intro k v hkv hk
    rw [he]
    rw [← mem_keys_iff, extractFromDict, mem_keys_extract_go]
    exact Or.inr ⟨(k, v), hkv, hk, rfl⟩
  · intro k' w hw
    rw [he] at hw
    have hw' : k' ∈ (extractFromDict fs).map Prod.fst := (mem_keys_iff _ _).mpr ⟨w, hw⟩
    rw [extractFromDict, mem_keys_extract_go] at hw'
    rcases hw' with h | ⟨kv, h1, h2, h3⟩
    · simp at h
    · exact ⟨kv.1, kv.2, by simpa using h1, h2, h3⟩

theorem C7_witness :
    unwrapData (.obj [("2021-03", Json.num 7), ("2021", Json.num 5)])
      = .obj [("2021-03", Json.num 7), ("2021", Json.num 5)] ∧
    ((∀ k v, (k, v) ∈ [("2021-03", Json.num 7), ("2021", Json.num 5)] →
        monthKeyOk k = true →
        ∃ w, (take7 k, w) ∈
          extract_month_series (.obj [("2021-03", Json.num 7), ("2021", Json.num 5)])) ∧
     (∀ k' w, (k', w) ∈
        extract_month_series (.obj [("2021-03", Json.num 7), ("2021", Json.num 5)]) →
        ∃ k v, (k, v) ∈ [("2021-03", Json.num 7), ("2021", Json.num 5)] ∧
          monthKeyOk k = true ∧ k' = take7 k)) :=
  ⟨rfl, C7_month_key_filter _ rfl⟩

/-- C8 fails on the code: `it.get("value", it.get("val", it.get("data")))`
keys on PRESENCE, not non-nullness, so a present null "value" field shadows
a numeric "val" field and the month gets NaN, not 5.0. -/
theorem C8_counterexample :
    extract_month_series
        (.arr [.obj [("month", .str "2021-03"), ("value", .null), ("val", .num 5)]])
      = [("2021-03", none)] ∧
    some (5 : ℚ) ≠ (none : Option ℚ) := by decide

/-- C8 amended: for a list entry, the value handed to `pick_scalar` is the
entry's "value" field whenever that key is present (even when its value is
null), else its "val" field when present, else its "data" field, else null. -/
theorem C8_value_field_presence (fs : List (String × Json)) (m : String)
    (hm : entryMonth fs = .str m) (hk : monthKeyOk m = true) :
    extract_month_series (.arr [.obj fs]) = [(take7 m, pick_scalar (entryValue fs))] ∧
    (∀ v, getKey fs "value" = some v → entryValue fs = v) ∧
    (getKey fs "value" = none → ∀ v, getKey fs "val" = some v → entryValue fs = v) ∧
    (getKey fs "value" = none → getKey fs "val" = none →
      ∀ v, getKey fs "data" = some v → entryValue fs = v) ∧
    (getKey fs "value" = none → getKey fs "val" = none → getKey fs "data" = none →
      entryValue fs = .null) ∧
    pick_scalar .null = none := by
  refine ⟨?_, ?_, ?_, ?_, ?_, rfl⟩
  · simp [extract_month_series, unwrapData, extractFromList, hm, hk, setKey]
  · intro v hv; simp [entryValue, getJD, hv]
  · intro h0 v hv; simp [entryValue, getJD, h0, hv]
  · intro h0 h1 v hv; simp [entryValue, getJD, h0, h1, hv]
  · intro h0 h1 h2; simp [entryValue, getJD, h0, h1, h2]

theorem C8_witness :
    entryMonth [("month", Json.str "2021-03"), ("val", Json.num 5)] = .str "2021-03" ∧
    monthKeyOk "2021-03" = true ∧
    extract_month_series (.arr [.obj [("month", Json.str "2021-03"), ("val", Json.num 5)]])
      = [(take7 "2021-03",
          pick_scalar (entryValue [("month", Json.str "2021-03"), ("val", Json.num 5)]))] :=
  ⟨rfl, by decide,
   (C8_value_field_presence [("month", Json.str "2021-03"), ("val", Json.num 5)]
      "2021-03" rfl (by decide)).1⟩

/-- C9: the Series Extractor is total in the embedding; a null or
non-mapping, non-sequence input yields the empty series, and the scalar
picker yields a null (NaN) on any non-numeric, non-mapping candidate. -/
theorem C9_extractor_total :
    extract_month_series .null = [] ∧
    (∀ j : Json, (∀ gs, j ≠ .obj gs) → (∀ l, j ≠ .arr l) →
      extract_month_series j = []) ∧
    (∀ v : Json, (∀ gs, v ≠ .obj gs) → isNumericJson v = false →
      pick_scalar v = none) ∧
    pick_scalar .nan = none := by
  refine ⟨rfl, ?_, ?_, rfl⟩
  · intro j hobj harr
    cases j with
    | null => rfl
    | bool b => rfl
    | num x => rfl
    | nan => rfl
    | str s => rfl
    | arr l => exact absurd rfl (harr l)
    | obj gs => exact absurd rfl (hobj gs)
  · intro v hobj hnum
    cases v with
    | null => rfl
    | bool b => simp [isNumericJson] at hnum
    | num x => simp [isNumericJson] at hnum
    | nan => simp [isNumericJson] at hnum
    | str s => rfl
    | arr l => rfl
    | obj gs => exact absurd rfl (hobj gs)

theorem C9_witness :
    extract_month_series (.str "oops") = [] ∧ pick_scalar (.str "x") = none :=
  ⟨C9_extractor_total.2.1 (.str "oops") (fun _ h => Json.noConfusion h)
      (fun _ h => Json.noConfusion h),
   C9_extractor_total.2.2.1 (.str "x") (fun _ h => Json.noConfusion h) rfl⟩

lemma percentile_rank_true (s : List (Option ℚ)) :
    percentile_rank s true =
      s.map (Option.map (fun x =>
        avgRank (s.filterMap id) x / ((s.filterMap id).length : ℚ))) := rfl

lemma filterMap_id_map_neg (s : List (Option ℚ)) :
    (s.map (Option.map (fun x : ℚ => -x))).filterMap id =
      (s.filterMap id).map (fun x => -x) := by
  induction s with
  | nil => rfl
  | cons o t ih => cases o <;> simp [ih]

lemma percentile_rank_false (s : List (Option ℚ)) :
    percentile_rank s false =
      s.map (Option.map (fun x =>
        avgRank ((s.filterMap id).map (fun y => -y)) (-x) /
          ((s.filterMap id).length : ℚ))) := by
  have h1 : percentile_rank s false =
      (s.map (Option.map (fun x : ℚ => -x))).map
        (Option.map (fun x =>
          avgRank ((s.map (Option.map (fun x : ℚ => -x))).filterMap id) x /
            (((s.map (Option.map (fun x : ℚ => -x))).filterMap id).length : ℚ))) := rfl
  rw [h1, filterMap_id_map_neg, List.map_map]
  congr 1
  funext o
  cases o <;> simp

lemma countP_lt_eq_gt (l : List ℚ) (x : ℚ) :
    l.countP (fun y => decide (y < x)) + l.countP (fun y => decide (y = x)) +
      l.countP (fun y => decide (x < y)) = l.length := by
  induction l with
  | nil => simp
  | cons a t ih =>
    simp only [List.countP_cons, List.length_cons, decide_eq_true_eq]
    rcases lt_trichotomy a x with h | h | h
    · rw [if_pos h, if_neg h.ne, if_neg (lt_asymm h)]
      omega
    · rw [if_neg (by rw [h]; exact lt_irrefl x), if_pos h,
        if_neg (by rw [h]; exact lt_irrefl x)]
      omega
    · rw [if_neg (lt_asymm h), if_neg (ne_of_gt h), if_pos h]
      omega

lemma countP_neg_lt (l : List ℚ) (x : ℚ) :
    (l.map (fun y => -y)).countP (fun y => decide (y < -x)) =
      l.countP (fun y => decide (x < y)) := by
  rw [List.countP_map]
  congr 1
  funext y
  exact decide_eq_decide.mpr neg_lt_neg_iff

lemma countP_neg_eq (l : List ℚ) (x : ℚ) :
    (l.map (fun y => -y)).countP (fun y => decide (y = -x)) =
      l.countP (fun y => decide (y = x)) := by
  rw [List.countP_map]
  congr 1
  funext y
  exact decide_eq_decide.mpr neg_inj

lemma avgRank_add_neg (vals : List ℚ) (x : ℚ) :
    avgRank vals x + avgRank (vals.map (fun y => -y)) (-x) =
      (vals.length : ℚ) + 1 := by
  unfold avgRank
  rw [countP_neg_lt, countP_neg_eq]
  have h := countP_lt_eq_gt vals x
  have hq : ((vals.countP (fun y => decide (y < x)) : ℚ)) +
      (vals.countP (fun y => decide (y = x)) : ℚ) +
      (vals.countP (fun y => decide (x < y)) : ℚ) = (vals.length : ℚ) := by
    exact_mod_cast h
  linarith

lemma mem_vals_of_get? {s : List (Option ℚ)} {i : ℕ} {x : ℚ}
    (hx : s.get? i = some (some x)) : x ∈ s.filterMap id :=
  List.mem_filterMap.mpr ⟨some x, List.get?_mem hx, rfl⟩

lemma rank_true_get {s : List (Option ℚ)} {i : ℕ} {x : ℚ}
    (hx : s.get? i = some (some x)) :
    (percentile_rank s true).get? i =
      some (some (avgRank (s.filterMap id) x / ((s.filterMap id).length : ℚ))) := by
  rw [percentile_rank_true, List.get?_map, hx]
  rfl

lemma rank_false_get {s : List (Option ℚ)} {i : ℕ} {x : ℚ}
    (hx : s.get? i = some (some x)) :
    (percentile_rank s false).get? i =
      some (some (avgRank ((s.filterMap id).map (fun y => -y)) (-x) /
        ((s.filterMap id).length : ℚ))) := by
  rw [percentile_rank_false, List.get?_map, hx]
  rfl

lemma countP_eq_one_of_nodup {vals : List ℚ} (hnd : vals.Nodup) {x : ℚ}
    (hx : x ∈ vals) :
    vals.countP (fun y => decide (y = x)) = 1 := by
  induction vals with
  | nil => cases hx
  | cons a t ih =>
    rw [List.countP_cons]
    have hnd' := List.nodup_cons.mp hnd
    by_cases hax : a = x
    · have hxt : x ∉ t := hax ▸ hnd'.1
      have hz : t.countP (fun y => decide (y = x)) = 0 :=
        List.countP_eq_zero.mpr (fun b hb => by
          simp only [decide_eq_true_eq]
          rintro rfl
          exact hxt hb)
      simp [hz, hax]
    · have hxt : x ∈ t := by
        rcases List.mem_cons.mp hx with h | h
        · exact absurd h.symm hax
        · exact h
      rw [ih hnd'.2 hxt]
      simp [hax]

lemma card_filter_lt_strict {S : Finset ℚ} {x y : ℚ} (hx : x ∈ S) (h : x < y) :
    (S.filter (fun z => z < x)).card < (S.filter (fun z => z < y)).card := by
  apply Finset.card_lt_card
  rw [Finset.ssubset_def]
  constructor
  · intro z hz
    rw [Finset.mem_filter] at hz ⊢
    exact ⟨hz.1, hz.2.trans h⟩
  · intro hsub
    have hxm := hsub (Finset.mem_filter.mpr ⟨hx, h⟩)
    rw [Finset.mem_filter] at hxm
    exact lt_irrefl x hxm.2

lemma image_card_filter_lt (S : Finset ℚ) :
    S.image (fun x => (S.filter (fun y => y < x)).card) = Finset.range S.card := by
  apply Finset.eq_of_subset_of_card_le
  · intro m hm
    rw [Finset.mem_image] at hm
    obtain ⟨x, hx, rfl⟩ := hm
    rw [Finset.mem_range]
    apply Finset.card_lt_card
    rw [Finset.ssubset_def]
    refine ⟨Finset.filter_subset _ _, fun hsub => ?_⟩
    have hxm := hsub hx
    rw [Finset.mem_filter] at hxm
    exact lt_irrefl x hxm.2
  · rw [Finset.card_range]
    have himg : (S.image (fun x => (S.filter (fun y => y < x)).card)).card = S.card := by
      apply Finset.card_image_of_injOn
      intro x hx y hy hxy
      by_contra hne
      rcases lt_or_gt_of_ne hne with h | h
      · exact absurd hxy (ne_of_lt (card_filter_lt_strict hx h))
      · exact absurd hxy.symm (ne_of_lt (card_filter_lt_strict hy h))
    exact le_of_eq himg.symm

lemma image_card_filter_gt (S : Finset ℚ) :
    S.image (fun x => (S.filter (fun y => x < y)).card) = Finset.range S.card := by
  have hinj : Function.Injective (fun y : ℚ => -y) := fun a b h => neg_injective h
  have h1 := image_card_filter_lt (S.image (fun y => -y))
  rw [Finset.card_image_of_injective S hinj, Finset.image_image] at h1
  rw [← h1]
  apply Finset.image_congr
  intro x hx
  simp only [Function.comp]
  have himg : (S.image (fun y : ℚ => -y)).filter (fun y => y < -x) =
      (S.filter (fun y => x < y)).image (fun y => -y) := by
    ext z
    simp only [Finset.mem_filter, Finset.mem_image]
    constructor
    · rintro ⟨⟨y, hy, rfl⟩, hz⟩
      exact ⟨y, ⟨hy, by linarith⟩, rfl⟩
    · rintro ⟨y, ⟨hy, hxy⟩, rfl⟩
      exact ⟨⟨y, hy, rfl⟩, by linarith⟩
  rw [himg, Finset.card_image_of_injective _ hinj]

lemma countP_lt_card {vals : List ℚ} (hnd : vals.Nodup) (x : ℚ) :
    vals.countP (fun y => decide (y < x)) =
      (vals.toFinset.filter (fun y => y < x)).card := by
  rw [List.countP_eq_length_filter]
  rw [← List.toFinset_card_of_nodup (hnd.filter _)]
  congr 1
  ext z
  simp [List.mem_filter]

lemma countP_gt_card {vals : List ℚ} (hnd : vals.Nodup) (x : ℚ) :
    vals.countP (fun y => decide (x < y)) =
      (vals.toFinset.filter (fun y => x < y)).card := by
  rw [List.countP_eq_length_filter]
  rw [← List.toFinset_card_of_nodup (hnd.filter _)]
  congr 1
  ext z
  simp [List.mem_filter]

lemma avgRank_nodup {vals : List ℚ} (hnd : vals.Nodup) {x : ℚ} (hx : x ∈ vals) :
    avgRank vals x = (vals.countP (fun y => decide (y < x)) : ℚ) + 1 := by
  unfold avgRank
  rw [countP_eq_one_of_nodup hnd hx]
  norm_num

lemma avgRank_neg_nodup {vals : List ℚ} (hnd : vals.Nodup) {x : ℚ} (hx : x ∈ vals) :
    avgRank (vals.map (fun y => -y)) (-x) =
      (vals.countP (fun y => decide (x < y)) : ℚ) + 1 := by
  unfold avgRank
  rw [countP_neg_lt, countP_neg_eq, countP_eq_one_of_nodup hnd hx]
  norm_num

lemma rank_flip_exists {s : List (Option ℚ)} (hnd : (s.filterMap id).Nodup) {x : ℚ}
    (hx : x ∈ s.filterMap id) :
    ∃ y ∈ s.filterMap id,
      avgRank ((s.filterMap id).map (fun z => -z)) (-y) =
        avgRank (s.filterMap id) x := by
  have hxS : x ∈ (s.filterMap id).toFinset := List.mem_toFinset.mpr hx
  have hb : ((s.filterMap id).toFinset.filter (fun z => z < x)).card ∈
      Finset.range (s.filterMap id).toFinset.card := by
    rw [← image_card_filter_lt]
    exact Finset.mem_image_of_mem _ hxS
  rw [← image_card_filter_gt] at hb
  obtain ⟨y, hyS, hcard⟩ := Finset.mem_image.mp hb
  refine ⟨y, List.mem_toFinset.mp hyS, ?_⟩
  rw [avgRank_neg_nodup hnd (List.mem_toFinset.mp hyS), avgRank_nodup hnd hx,
    countP_gt_card hnd y, countP_lt_card hnd x, hcard]

lemma rank_flip_exists' {s : List (Option ℚ)} (hnd : (s.filterMap id).Nodup) {x : ℚ}
    (hx : x ∈ s.filterMap id) :
    ∃ y ∈ s.filterMap id,
      avgRank (s.filterMap id) y =
        avgRank ((s.filterMap id).map (fun z => -z)) (-x) := by
  have hxS : x ∈ (s.filterMap id).toFinset := List.mem_toFinset.mpr hx
  have hb : ((s.filterMap id).toFinset.filter (fun z => x < z)).card ∈
      Finset.range (s.filterMap id).toFinset.card := by
    rw [← image_card_filter_gt]
    exact Finset.mem_image_of_mem _ hxS
  rw [← image_card_filter_lt] at hb
  obtain ⟨y, hyS, hcard⟩ := Finset.mem_image.mp hb
  refine ⟨y, List.mem_toFinset.mp hyS, ?_⟩
  rw [avgRank_neg_nodup hnd hx, avgRank_nodup hnd (List.mem_toFinset.mp hyS),
    countP_lt_card hnd y, countP_gt_card hnd x, hcard]

lemma toFinset_percentile_flip {s : List (Option ℚ)}
    (hnd : (s.filterMap id).Nodup) :
    (percentile_rank s true).toFinset = (percentile_rank s false).toFinset := by
  rw [percentile_rank_true, percentile_rank_false]
  have hset : ∀ f : ℚ → ℚ,
      (s.map (Option.map f)).toFinset = s.toFinset.image (Option.map f) := by
    intro f
    ext o
    simp
  rw [hset, hset]
  apply Finset.ext
  intro o
  simp only [Finset.mem_image]
  constructor
  · rintro ⟨o', ho', rfl⟩
    cases o' with
    | none => exact ⟨none, ho', rfl⟩
    | some x =>
      have hx : x ∈ s.filterMap id :=
        List.mem_filterMap.mpr ⟨some x, List.mem_toFinset.mp ho', rfl⟩
      obtain ⟨y, hy, hrk⟩ := rank_flip_exists hnd hx
      refine ⟨some y, ?_, ?_⟩
      · rcases List.mem_filterMap.mp hy with ⟨a, ha, hay⟩
        cases a with
        | none => cases hay
        | some b =>
          obtain rfl : b = y := by simpa using hay
          exact List.mem_toFinset.mpr ha
      · simp only [Option.map_some']
        rw [hrk]
  · rintro ⟨o', ho', rfl⟩
    cases o' with
    | none => exact ⟨none, ho', rfl⟩
    | some x =>
      have hx : x ∈ s.filterMap id :=
        List.mem_filterMap.mpr ⟨some x, List.mem_toFinset.mp ho', rfl⟩
      obtain ⟨y, hy, hrk⟩ := rank_flip_exists' hnd hx
      refine ⟨some y, ?_, ?_⟩
      · rcases List.mem_filterMap.mp hy with ⟨a, ha, hay⟩
        cases a with
        | none => cases hay
        | some b =>
          obtain rfl : b = y := by simpa using hay
          exact List.mem_toFinset.mpr ha
      · simp only [Option.map_some']
        rw [hrk]

lemma filterMap_id_length_no_none {s : List (Option ℚ)}
    (h : ∀ o ∈ s, o ≠ none) : (s.filterMap id).length = s.length := by
  induction s with
  | nil => rfl
  | cons o t ih =>
    cases o with
    | none => exact absurd rfl (h none (List.mem_cons_self _ _))
    | some x =>
      simp only [List.filterMap_cons, id, List.length_cons]
      rw [ih (fun o ho => h o (List.mem_cons_of_mem _ ho))]

lemma filterMap_id_filter_isSome (s : List (Option ℚ)) :
    (s.filter (fun o => o.isSome)).filterMap id = s.filterMap id := by
  induction s with
  | nil => rfl
  | cons o t ih => cases o <;> simp [ih]

lemma vals_length_pos {s : List (Option ℚ)} {x : ℚ} (hx : x ∈ s.filterMap id) :
    (0 : ℚ) < ((s.filterMap id).length : ℚ) := by
  exact_mod_cast List.length_pos.mpr (List.ne_nil_of_mem hx)

lemma rank_of_max {s : List (Option ℚ)} (hnd : (s.filterMap id).Nodup) {i : ℕ}
    {x : ℚ} (hx : s.get? i = some (some x))
    (hmax : ∀ y ∈ s.filterMap id, y ≤ x) :
    (percentile_rank s true).get? i = some (some 1) := by
  rw [rank_true_get hx]
  have hxm := mem_vals_of_get? hx
  have hc1 := countP_eq_one_of_nodup hnd hxm
  have hg0 : (s.filterMap id).countP (fun y => decide (x < y)) = 0 :=
    List.countP_eq_zero.mpr (fun y hy => by
      simp only [decide_eq_true_eq]
      exact not_lt.mpr (hmax y hy))
  have htri := countP_lt_eq_gt (s.filterMap id) x
  have hn : (s.filterMap id).countP (fun y => decide (y < x)) + 1 =
      (s.filterMap id).length := by omega
  have hdiv : avgRank (s.filterMap id) x / ((s.filterMap id).length : ℚ) = 1 := by
    rw [avgRank_nodup hnd hxm]
    have hq : ((s.filterMap id).countP (fun y => decide (y < x)) : ℚ) + 1 =
        ((s.filterMap id).length : ℚ) := by exact_mod_cast hn
    rw [hq]
    exact div_self (vals_length_pos hxm).ne'
  rw [hdiv]

lemma rank_of_min {s : List (Option ℚ)} (hnd : (s.filterMap id).Nodup) {i : ℕ}
    {x : ℚ} (hx : s.get? i = some (some x))
    (hmin : ∀ y ∈ s.filterMap id, x ≤ y) :
    (percentile_rank s true).get? i =
      some (some (1 / ((s.filterMap id).length : ℚ))) := by
  rw [rank_true_get hx]
  have hxm := mem_vals_of_get? hx
  have hl0 : (s.filterMap id).countP (fun y => decide (y < x)) = 0 :=
    List.countP_eq_zero.mpr (fun y hy => by
      simp only [decide_eq_true_eq]
      exact not_lt.mpr (hmin y hy))
  rw [avgRank_nodup hnd hxm, hl0]
  norm_num

lemma rank_sum_entry {s : List (Option ℚ)} {i : ℕ} {x : ℚ}
    (hx : s.get? i = some (some x)) {r r' : ℚ}
    (hr : (percentile_rank s true).get? i = some (some r))
    (hr' : (percentile_rank s false).get? i = some (some r')) :
    r + r' = (((s.filterMap id).length : ℚ) + 1) /
      ((s.filterMap id).length : ℚ) := by
  rw [rank_true_get hx] at hr
  rw [rank_false_get hx] at hr'
  obtain rfl : avgRank (s.filterMap id) x / ((s.filterMap id).length : ℚ) = r := by
    simpa using hr
  obtain rfl : avgRank ((s.filterMap id).map (fun y => -y)) (-x) /
      ((s.filterMap id).length : ℚ) = r' := by
    simpa using hr'
  rw [div_add_div_same, avgRank_add_neg]

lemma rank_none_iff (s : List (Option ℚ)) (hib : Bool) (i : ℕ) :
    (percentile_rank s hib).get? i = some none ↔ s.get? i = some none := by
  cases hib
  · rw [percentile_rank_false, List.get?_map]
    cases hs : s.get? i with
    | none => simp
    | some o => cases o <;> simp
  · rw [percentile_rank_true, List.get?_map]
    cases hs : s.get? i with
    | none => simp
    | some o => cases o <;> simp

lemma rank_stripped {s : List (Option ℚ)} (hib : Bool) {i j : ℕ} {x r : ℚ}
    (hx : s.get? i = some (some x))
    (hr : (percentile_rank s hib).get? i = some (some r))
    (hj : (s.filter (fun o => o.isSome)).get? j = some (some x)) :
    (percentile_rank (s.filter (fun o => o.isSome)) hib).get? j = some (some r) := by
  cases hib
  · rw [rank_false_get hx] at hr
    rw [rank_false_get hj, filterMap_id_filter_isSome]
    exact hr
  · rw [rank_true_get hx] at hr
    rw [rank_true_get hj, filterMap_id_filter_isSome]
    exact hr

/-- C2 fails on the code under tied values: with column `[5, 5]` pandas
average ranking gives both entries pct rank 3/4, not 1.0 for the maximum;
and with `[1, 2, 2]` the set of rank values is not preserved when
`higher_is_better` is flipped. -/
theorem C2_counterexample :
    percentile_rank [some 5, some 5] true = [some (3/4), some (3/4)] ∧
    (3/4 : ℚ) ≠ 1 ∧
    (percentile_rank [some 1, some 2, some 2] true).toFinset ≠
      (percentile_rank [some 1, some 2, some 2] false).toFinset := by
  refine ⟨?_, by norm_num, ?_⟩
  · rw [percentile_rank_true]
    norm_num [avgRank, List.filterMap_cons, List.filterMap_nil, id, Function.comp,
        List.countP_cons, List.countP_nil]
  · have h1 : percentile_rank [some 1, some 2, some 2] true
        = [some (1/3), some (5/6), some (5/6)] := by
      rw [percentile_rank_true]
      norm_num [avgRank, List.filterMap_cons, List.filterMap_nil, id, Function.comp,
        List.countP_cons, List.countP_nil]
    have h2 : percentile_rank [some 1, some 2, some 2] false
        = [some 1, some (1/2), some (1/2)] := by
      rw [percentile_rank_false]
      norm_num [avgRank, List.filterMap_cons, List.filterMap_nil, id, Function.comp,
        List.countP_cons, List.countP_nil]
    rw [h1, h2]
    intro h
    have hm : (some (1/3) : Option ℚ) ∈
        ([some 1, some (1/2), some (1/2)] : List (Option ℚ)).toFinset := by
      rw [← h]
      simp
    rw [List.mem_toFinset] at hm
    simp only [List.mem_cons, List.not_mem_nil, or_false, Option.some.injEq] at hm
    rcases hm with h' | h' | h' <;> norm_num at h'

/-- C2 amended: restricted to columns whose non-null values are pairwise
distinct, the Percentile Normalizer satisfies: on a no-null column of N
(distinct) values the maximum gets rank 1.0 and the minimum 1/N; flipping
`higher_is_better` reverses the rank order (the two ranks of each entry sum
to (n+1)/n over the n non-null values — this reversal needs no
distinctness) and, for distinct non-null values, preserves the set of rank
values; nulls stay null, their presence never shifts a non-null entry's
rank (deleting the null entries leaves every non-null rank unchanged). -/
theorem C2_percentile_normalizer (s : List (Option ℚ)) :
    ((∀ o ∈ s, o ≠ none) → (s.filterMap id).Nodup →
      (∀ i x, s.get? i = some (some x) → (∀ y ∈ s.filterMap id, y ≤ x) →
        (percentile_rank s true).get? i = some (some 1)) ∧
      (∀ i x, s.get? i = some (some x) → (∀ y ∈ s.filterMap id, x ≤ y) →
        (percentile_rank s true).get? i = some (some (1 / (s.length : ℚ))))) ∧
    (∀ i j x y r₁ r₂ q₁ q₂,
      s.get? i = some (some x) → s.get? j = some (some y) →
      (percentile_rank s true).get? i = some (some r₁) →
      (percentile_rank s true).get? j = some (some r₂) →
      (percentile_rank s false).get? i = some (some q₁) →
      (percentile_rank s false).get? j = some (some q₂) →
      (r₁ < r₂ ↔ q₂ < q₁)) ∧
    ((s.filterMap id).Nodup →
      (percentile_rank s true).toFinset = (percentile_rank s false).toFinset) ∧
    (∀ hib : Bool,
      (∀ i, (percentile_rank s hib).get? i = some none ↔ s.get? i = some none) ∧
      (∀ i j x r, s.get? i = some (some x) →
        (percentile_rank s hib).get? i = some (some r) →
        (s.filter (fun o => o.isSome)).get? j = some (some x) →
        (percentile_rank (s.filter (fun o => o.isSome)) hib).get? j
          = some (some r))) := by
  refine ⟨?_, ?_, ?_, ?_⟩
  · intro hnn hnd
    constructor
    · intro i x hx hmax
      exact rank_of_max hnd hx hmax
    · intro i x hx hmin
      rw [← filterMap_id_length_no_none hnn]
      exact rank_of_min hnd hx hmin
  · intro i j x y r₁ r₂ q₁ q₂ hx hy hr₁ hr₂ hq₁ hq₂
    have h₁ := rank_sum_entry hx hr₁ hq₁
    have h₂ := rank_sum_entry hy hr₂ hq₂
    constructor
    · intro h
      linarith
    · intro h
      linarith
  · intro hnd
    exact toFinset_percentile_flip hnd
  · intro hib
    refine ⟨rank_none_iff s hib, ?_⟩
    intro i j x r hx hr hj
    exact rank_stripped hib hx hr hj

theorem C2_witness :
    (percentile_rank [some (1:ℚ), some 3, some 2] true).get? 1 = some (some 1) :=
  ((C2_percentile_normalizer [some (1:ℚ), some 3, some 2]).1 (by decide) (by decide)).1
    1 3 (by decide) (by decide)

lemma mem_insertStr (a m : String) (l : List String) :
    a ∈ insertStr m l ↔ a = m ∨ a ∈ l := by
  induction l with
  | nil => simp [insertStr]
  | cons x xs ih =>
    by_cases h : strLeB m x = true
    · simp [insertStr, h]
    · simp only [insertStr, if_neg h, List.mem_cons, ih]
      tauto

lemma mem_sortStrings (a : String) (l : List String) :
    a ∈ sortStrings l ↔ a ∈ l := by
  induction l with
  | nil => simp [sortStrings]
  | cons x xs ih =>
    simp only [sortStrings, mem_insertStr, List.mem_cons, ih]

lemma mem_insertRow (a r : OpsRow) (l : List OpsRow) :
    a ∈ insertRow r l ↔ a = r ∨ a ∈ l := by
  induction l with
  | nil => simp [insertRow]
  | cons x xs ih =>
    by_cases h : rowLE r x = true
    · simp [insertRow, h]
    · simp only [insertRow, if_neg h, List.mem_cons, ih]
      tauto

lemma mem_sortRows (a : OpsRow) (l : List OpsRow) :
    a ∈ sortRows l ↔ a ∈ l := by
  induction l with
  | nil => simp [sortRows]
  | cons x xs ih =>
    simp only [sortRows, mem_insertRow, List.mem_cons, ih]

lemma mem_monthsOf (m : String) (sm : List (String × List (String × Option ℚ))) :
    m ∈ monthsOf sm ↔ ∃ cs ∈ sm, m ∈ cs.2.map Prod.fst := by
  unfold monthsOf
  rw [mem_sortStrings, List.mem_dedup, List.mem_flatMap]

lemma build_ops_rows_fields {d : RepoDir} {files : List (String × String)}
    {row : OpsRow} (h : row ∈ build_ops_rows d files) :
    row.repo_full = d.org ++ "/" ++ d.repo ∧ row.org = d.org ∧ row.repo = d.repo ∧
    row.month ∈ monthsOf (seriesMapFor d files) ∧
    row.cols = (seriesMapFor d files).map
      (fun cs => (cs.1, (getKey cs.2 row.month).getD none)) := by
  unfold build_ops_rows at h
  obtain ⟨m, hm, rfl⟩ := List.mem_map.mp h
  exact ⟨rfl, rfl, rfl, hm, rfl⟩

lemma getKey_map_of_mem {α β : Type} (l : List (String × α)) (f : String × α → β)
    (hnd : (l.map Prod.fst).Nodup) {cs : String × α} (hcs : cs ∈ l) :
    getKey (l.map (fun p => (p.1, f p))) cs.1 = some (f cs) := by
  induction l with
  | nil => cases hcs
  | cons p rest ih =>
    simp only [List.map_cons, List.nodup_cons] at hnd ⊢
    rcases List.mem_cons.mp hcs with rfl | hmem
    · simp [getKey]
    · have hne : p.1 ≠ cs.1 := by
        intro he
        exact hnd.1 (he ▸ List.mem_map_of_mem Prod.fst hmem)
      simp only [getKey, if_neg hne]
      exact ih hnd.2 hmem

lemma filesFor_keys_nodup (kind : String) :
    ((filesFor kind).map Prod.fst).Nodup := by
  unfold filesFor
  by_cases h : kind = "issue"
  · rw [if_pos h]
    decide
  · rw [if_neg h]
    decide

/-- C5: a (repository, month) row exists in `build_ops_long` exactly when
the month lies in the union of that repository's per-column series; columns
whose series lack the month are null on the row and columns whose series
have it carry the stored value; a repository whose series are all empty
contributes no rows. -/
theorem C5_long_table_rows (repos : List RepoDir) (kind : String) (d : RepoDir)
    (hnd : (repos.map (fun e => e.org ++ "/" ++ e.repo)).Nodup)
    (hd : d ∈ repos) :
    (∀ m, (∃ row ∈ build_ops_long repos kind,
        row.repo_full = d.org ++ "/" ++ d.repo ∧ row.month = m) ↔
      ∃ cs ∈ seriesMapFor d (filesFor kind), m ∈ cs.2.map Prod.fst) ∧
    (∀ row ∈ build_ops_long repos kind, row.repo_full = d.org ++ "/" ++ d.repo →
      ∀ cs ∈ seriesMapFor d (filesFor kind),
        (getKey cs.2 row.month = none → getKey row.cols cs.1 = some none) ∧
        (∀ w, getKey cs.2 row.month = some w → getKey row.cols cs.1 = some w)) ∧
    ((∀ cs ∈ seriesMapFor d (filesFor kind), cs.2 = []) →
      ∀ row ∈ build_ops_long repos kind,
        row.repo_full ≠ d.org ++ "/" ++ d.repo) := by
  have hattr : ∀ row ∈ build_ops_long repos kind,
      row.repo_full = d.org ++ "/" ++ d.repo →
      row ∈ build_ops_rows d (filesFor kind) := by
    intro row hrow hfull
    unfold build_ops_long at hrow
    rw [mem_sortRows, List.mem_flatMap] at hrow
    obtain ⟨d', hd', hrow'⟩ := hrow
    obtain ⟨hfull', _, _, _, _⟩ := build_ops_rows_fields hrow'
    have : d' = d := List.inj_on_of_nodup_map hnd hd' hd (by rw [← hfull', hfull])
    rwa [← this]
  have hkeys : ((seriesMapFor d (filesFor kind)).map Prod.fst).Nodup := by
    unfold seriesMapFor
    rw [List.map_map]
    exact filesFor_keys_nodup kind
  refine ⟨?_, ?_, ?_⟩
  · intro m
    constructor
    · rintro ⟨row, hrow, hfull, rfl⟩
      have hmem := hattr row hrow hfull
      obtain ⟨_, _, _, hms, _⟩ := build_ops_rows_fields hmem
      exact (mem_monthsOf _ _).mp hms
    · intro hm
      rw [← mem_monthsOf] at hm
      refine ⟨{ repo_full := (d.org ++ "/" ++ d.repo), org := d.org,
                repo := d.repo, month := m,
                cols := (seriesMapFor d (filesFor kind)).map
                  (fun cs => (cs.1, (getKey cs.2 m).getD none)) }, ?_, rfl, rfl⟩
      unfold build_ops_long
      rw [mem_sortRows, List.mem_flatMap]
      refine ⟨d, hd, ?_⟩
      unfold build_ops_rows
      exact List.mem_map.mpr ⟨m, hm, rfl⟩
  · intro row hrow hfull cs hcs
    have hmem := hattr row hrow hfull
    obtain ⟨_, _, _, _, hcols⟩ := build_ops_rows_fields hmem
    constructor
    · intro hnone
      rw [hcols]
      have hgk := getKey_map_of_mem (seriesMapFor d (filesFor kind))
        (fun cs => (getKey cs.2 row.month).getD none) hkeys hcs
      rw [hgk]
      simp [hnone]
    · intro w hw
      rw [hcols]
      have hgk := getKey_map_of_mem (seriesMapFor d (filesFor kind))
        (fun cs => (getKey cs.2 row.month).getD none) hkeys hcs
      rw [hgk]
      simp [hw]
  · intro hempty row hrow hfull
    have hmem := hattr row hrow hfull
    obtain ⟨_, _, _, hms, _⟩ := build_ops_rows_fields hmem
    obtain ⟨cs, hcs, hmcs⟩ := (mem_monthsOf _ _).mp hms
    rw [hempty cs hcs] at hmcs
    cases hmcs

theorem C5_witness :
    ∃ row ∈ build_ops_long
        [⟨"o", "r", [("issues_new.json", Json.obj [("2021-03", Json.num 1)])]⟩]
        "issue",
      row.repo_full = "o" ++ "/" ++ "r" ∧ row.month = "2021-03" :=
  ((C5_long_table_rows
      [⟨"o", "r", [("issues_new.json", Json.obj [("2021-03", Json.num 1)])]⟩]
      "issue" ⟨"o", "r", [("issues_new.json", Json.obj [("2021-03", Json.num 1)])]⟩
      (by simp) (List.mem_cons_self _ _)).1 "2021-03").mpr (by decide)

lemma leftMerge_of_unique {α β γ : Type} (left : List α) (right : List β)
    (keyl : α → String) (keyr : β → String) (comb : α → Option β → γ)
    (h : ∀ k, (right.filter (fun r => decide (keyr r = k))).length ≤ 1) :
    leftMerge left right keyl keyr comb =
      left.map (fun l =>
        comb l ((right.filter (fun r => decide (keyr r = keyl l))).head?)) := by
  induction left with
  | nil => rfl
  | cons a t ih =>
    have hstep : leftMerge (a :: t) right keyl keyr comb =
        (match right.filter (fun r => decide (keyr r = keyl a)) with
          | [] => [comb a none]
          | ms => ms.map (fun r => comb a (some r))) ++
          leftMerge t right keyl keyr comb := by
      unfold leftMerge
      rw [List.flatMap_cons]
    rw [hstep, ih, List.map_cons]
    cases hf : right.filter (fun r => decide (keyr r = keyl a)) with
    | nil => simp
    | cons b bs =>
      have hlen := h (keyl a)
      rw [hf] at hlen
      simp only [List.length_cons] at hlen
      have hbs : bs = [] := List.length_eq_zero.mp (by omega)
      subst hbs
      simp

lemma endORPairs_key_length (ol : List ORRow) (m k : String) :
    ((endORPairs ol m).filter (fun p => decide (p.1 = k))).length =
      ol.countP (fun r => decide (r.repo_full = k) && decide (r.month = m)) := by
  unfold endORPairs
  rw [List.map_filter, List.length_map, List.filter_filter,
    ← List.countP_eq_length_filter]
  congr 1

lemma issEndOf_key_length (il : List IssueRow) (m k : String) :
    ((issEndOf il m).filter (fun b => decide (b.repo_full = k))).length =
      il.countP (fun r => decide (r.repo_full = k) && decide (r.month = m)) := by
  unfold issEndOf
  rw [List.map_filter, List.length_map, List.filter_filter,
    ← List.countP_eq_length_filter]
  congr 1

lemma prEndOf_key_length (pl : List PRRow) (m k : String) :
    ((prEndOf pl m).filter (fun b => decide (b.repo_full = k))).length =
      pl.countP (fun r => decide (r.repo_full = k) && decide (r.month = m)) := by
  unfold prEndOf
  rw [List.map_filter, List.length_map, List.filter_filter,
    ← List.countP_eq_length_filter]
  congr 1

lemma osub_none_left (b : Option ℚ) : osub none b = none := by
  cases b <;> rfl

lemma osub_none_right (a : Option ℚ) : osub a none = none := by
  cases a <;> rfl

/-- C6: with at most one row per (repository, month) in each long table,
the snapshot has exactly the end-month openrank repositories as rows, in
order, with no duplication or loss; a repository without an end-month
openrank row is absent; a snapshot row with no matching end-month issue
(resp. PR) row has all-null issue (resp. PR) columns; and openrank_delta is
null whenever openrank_end or openrank_start is null. -/
theorem C6_snapshot_assembler (ol : List ORRow) (il : List IssueRow)
    (pl : List PRRow) (em sm : String)
    (hOR : ∀ k m, ol.countP
      (fun r => decide (r.repo_full = k) && decide (r.month = m)) ≤ 1)
    (hIS : ∀ k m, il.countP
      (fun r => decide (r.repo_full = k) && decide (r.month = m)) ≤ 1)
    (hPR : ∀ k m, pl.countP
      (fun r => decide (r.repo_full = k) && decide (r.month = m)) ≤ 1) :
    ((build_end_snapshot ol il pl em sm).map (fun s => s.repo_full) =
      (ol.filter (fun r => decide (r.month = em))).map (fun r => r.repo_full)) ∧
    (∀ k, (∀ r ∈ ol, r.repo_full = k → r.month ≠ em) →
      ∀ s ∈ build_end_snapshot ol il pl em sm, s.repo_full ≠ k) ∧
    (∀ s ∈ build_end_snapshot ol il pl em sm,
      (∀ r ∈ il, r.repo_full = s.repo_full → r.month ≠ em) →
      s.issue_response_time = none ∧ s.issue_resolution_duration = none ∧
        s.backlog_end = none) ∧
    (∀ s ∈ build_end_snapshot ol il pl em sm,
      (∀ r ∈ pl, r.repo_full = s.repo_full → r.month ≠ em) →
      s.change_requests = none ∧ s.change_request_response_time = none ∧
        s.change_request_resolution_duration = none) ∧
    (∀ s ∈ build_end_snapshot ol il pl em sm,
      s.openrank_end = none ∨ s.openrank_start = none →
      s.openrank_delta = none) := by
  have hu_st : ∀ k, ((endORPairs ol sm).filter
      (fun p => decide (p.1 = k))).length ≤ 1 := by
    intro k
    rw [endORPairs_key_length]
    exact hOR k sm
  have hu_iss : ∀ k, ((issEndOf il em).filter
      (fun b => decide (b.repo_full = k))).length ≤ 1 := by
    intro k
    rw [issEndOf_key_length]
    exact hIS k em
  have hu_pr : ∀ k, ((prEndOf pl em).filter
      (fun b => decide (b.repo_full = k))).length ≤ 1 := by
    intro k
    rw [prEndOf_key_length]
    exact hPR k em
  have hsnap1 : snap1Of ol em sm = (endORPairs ol em).map (fun e =>
      { repo_full := e.1, openrank_end := e.2,
        openrank_start := ((((endORPairs ol sm).filter
          (fun p => decide (p.1 = e.1))).head?).map Prod.snd).join,
        openrank_delta := osub e.2 ((((endORPairs ol sm).filter
          (fun p => decide (p.1 = e.1))).head?).map Prod.snd).join }) := by
    unfold snap1Of
    rw [leftMerge_of_unique _ _ _ _ _ hu_st]
  have hsnap : build_end_snapshot ol il pl em sm =
      (((snap1Of ol em sm).map (fun a =>
        (a, ((issEndOf il em).filter
          (fun b => decide (b.repo_full = a.repo_full))).head?))).map (fun a =>
        snapRowOf a (((prEndOf pl em).filter
          (fun b => decide (b.repo_full = a.1.repo_full))).head?))) := by
    unfold build_end_snapshot
    rw [leftMerge_of_unique _ _ _ _ _ hu_iss,
      leftMerge_of_unique _ _ _ _ _ hu_pr, List.map_map]
  have hmem : ∀ s ∈ build_end_snapshot ol il pl em sm,
      ∃ r ∈ ol, r.month = em ∧ s.repo_full = r.repo_full ∧
        s.openrank_end = r.openrank ∧
        s.openrank_delta = osub s.openrank_end s.openrank_start ∧
        s.issue_response_time = (((issEndOf il em).filter
          (fun b => decide (b.repo_full = r.repo_full))).head?).bind
            (fun i => i.issue_response_time) ∧
        s.issue_resolution_duration = (((issEndOf il em).filter
          (fun b => decide (b.repo_full = r.repo_full))).head?).bind
            (fun i => i.issue_resolution_duration) ∧
        s.backlog_end = (((issEndOf il em).filter
          (fun b => decide (b.repo_full = r.repo_full))).head?).bind
            (fun i => i.backlog_end) ∧
        s.change_requests = (((prEndOf pl em).filter
          (fun b => decide (b.repo_full = r.repo_full))).head?).bind
            (fun p => p.change_requests) ∧
        s.change_request_response_time = (((prEndOf pl em).filter
          (fun b => decide (b.repo_full = r.repo_full))).head?).bind
            (fun p => p.change_request_response_time) ∧
        s.change_request_resolution_duration = (((prEndOf pl em).filter
          (fun b => decide (b.repo_full = r.repo_full))).head?).bind
            (fun p => p.change_request_resolution_duration) := by
    intro s hs
    rw [hsnap] at hs
    obtain ⟨a2, ha2, rfl⟩ := List.mem_map.mp hs
    obtain ⟨a1, ha1, rfl⟩ := List.mem_map.mp ha2
    rw [hsnap1] at ha1
    obtain ⟨e, he, rfl⟩ := List.mem_map.mp ha1
    unfold endORPairs at he
    obtain ⟨r, hr, rfl⟩ := List.mem_map.mp he
    rw [List.mem_filter, decide_eq_true_eq] at hr
    refine ⟨r, hr.1, hr.2, ?_⟩
    simp [snapRowOf]
  have hmap : (build_end_snapshot ol il pl em sm).map (fun s => s.repo_full) =
      (ol.filter (fun r => decide (r.month = em))).map (fun r => r.repo_full) := by
    rw [hsnap, hsnap1]
    unfold endORPairs
    simp only [List.map_map]
    rfl
  refine ⟨hmap, ?_, ?_, ?_, ?_⟩
  · intro k hk s hs hsk
    obtain ⟨r, hr, hrm, hsr, _⟩ := hmem s hs
    exact hk r hr (by rw [← hsr, hsk]) hrm
  · intro s hs hno
    obtain ⟨r, hr, hrm, hsr, _, _, hirt, hird, hbl, _⟩ := hmem s hs
    have hfil : (issEndOf il em).filter
        (fun b => decide (b.repo_full = r.repo_full)) = [] := by
      rw [List.filter_eq_nil_iff]
      intro b hb
      unfold issEndOf at hb
      obtain ⟨r', hr', rfl⟩ := List.mem_map.mp hb
      rw [List.mem_filter, decide_eq_true_eq] at hr'
      simp only [decide_eq_true_eq]
      intro hbk
      exact hno r' hr'.1 (by rw [hbk, ← hsr]) hr'.2
    rw [hfil] at hirt hird hbl
    exact ⟨hirt, hird, hbl⟩
  · intro s hs hno
    obtain ⟨r, hr, hrm, hsr, _, _, _, _, _, hcr, hcrt, hcrd⟩ := hmem s hs
    have hfil : (prEndOf pl em).filter
        (fun b => decide (b.repo_full = r.repo_full)) = [] := by
      rw [List.filter_eq_nil_iff]
      intro b hb
      unfold prEndOf at hb
      obtain ⟨r', hr', rfl⟩ := List.mem_map.mp hb
      rw [List.mem_filter, decide_eq_true_eq] at hr'
      simp only [decide_eq_true_eq]
      intro hbk
      exact hno r' hr'.1 (by rw [hbk, ← hsr]) hr'.2
    rw [hfil] at hcr hcrt hcrd
    exact ⟨hcr, hcrt, hcrd⟩
  · intro s hs hnull
    obtain ⟨r, hr, hrm, hsr, hsoe, hdelta, _⟩ := hmem s hs
    rw [hdelta]
    rcases hnull with h | h
    · rw [h, osub_none_left]
    · rw [h, osub_none_right]

lemma oadd_none_left (b : Option ℚ) : oadd none b = none := by
  cases b <;> rfl

lemma oadd_none_right (a : Option ℚ) : oadd a none = none := by
  cases a <;> rfl

lemma compute_health_score_get {snap : List SnapRow} {i : ℕ} {row : ScoredRow}
    (h : (compute_health_score snap).get? i = some row) :
    row.health_score = Option.map round2 (omul 100
      (oadd (omul (35/100) row.n_openrank_end)
      (oadd (omul (20/100) row.n_openrank_delta)
      (oadd (omul (15/100) row.n_issue_response_time)
      (oadd (omul (10/100) row.n_backlog_end)
      (oadd (omul (10/100) row.n_issue_resolution_duration)
      (oadd (omul (5/100) row.n_pr_response_time)
        (omul (5/100) row.n_pr_resolution_duration)))))))) ∧
    row.health_level = health_level row.health_score := by
  unfold compute_health_score at h
  rw [List.get?_map] at h
  cases hfr : (List.finRange snap.length).get? i with
  | none =>
    rw [hfr] at h
    simp at h
  | some j =>
    rw [hfr] at h
    obtain rfl := Option.some.inj h
    exact ⟨rfl, rfl⟩

lemma health_score_none_of_any_none {snap : List SnapRow} {i : ℕ}
    {row : ScoredRow} (h : (compute_health_score snap).get? i = some row)
    (hn : row.n_openrank_end = none ∨ row.n_openrank_delta = none ∨
      row.n_issue_response_time = none ∨ row.n_backlog_end = none ∨
      row.n_issue_resolution_duration = none ∨ row.n_pr_response_time = none ∨
      row.n_pr_resolution_duration = none) :
    row.health_score = none := by
  rw [(compute_health_score_get h).1]
  rcases hn with h1 | h1 | h1 | h1 | h1 | h1 | h1 <;>
    simp [h1, omul, oadd_none_left, oadd_none_right, Option.map_none']

/-- C3: in the Health Scorer, a snapshot row with ANY null among the seven
weighted normalized columns gets a null health_score; a row with all seven
non-null gets 100 times the weighted sum (weights 0.35, 0.20, 0.15, 0.10,
0.10, 0.05, 0.05, summing to 1) rounded to two digits. -/
theorem C3_health_score_nulls (snap : List SnapRow) (i : ℕ) (row : ScoredRow)
    (h : (compute_health_score snap).get? i = some row) :
    ((row.n_openrank_end = none ∨ row.n_openrank_delta = none ∨
        row.n_issue_response_time = none ∨ row.n_backlog_end = none ∨
        row.n_issue_resolution_duration = none ∨
        row.n_pr_response_time = none ∨ row.n_pr_resolution_duration = none) →
      row.health_score = none) ∧
    (∀ a b c d e f g, row.n_openrank_end = some a →
      row.n_openrank_delta = some b → row.n_issue_response_time = some c →
      row.n_backlog_end = some d → row.n_issue_resolution_duration = some e →
      row.n_pr_response_time = some f → row.n_pr_resolution_duration = some g →
      row.health_score = some (round2 (100 * (35/100 * a + 20/100 * b +
        15/100 * c + 10/100 * d + 10/100 * e + 5/100 * f + 5/100 * g)))) ∧
    ((35:ℚ)/100 + 20/100 + 15/100 + 10/100 + 10/100 + 5/100 + 5/100 = 1) := by
  refine ⟨health_score_none_of_any_none h, ?_, by norm_num⟩
  intro a b c d e f g h1 h2 h3 h4 h5 h6 h7
  rw [(compute_health_score_get h).1, h1, h2, h3, h4, h5, h6, h7]
  simp only [omul, oadd, Option.map_some']
  refine congrArg some (congrArg round2 ?_)
  ring

theorem C3_witness :
    (compute_health_score
        [{ repo_full := "o/r", openrank_end := none, openrank_start := none,
           openrank_delta := none, issue_response_time := none,
           issue_resolution_duration := none, backlog_end := none,
           change_requests := none, change_request_response_time := none,
           change_request_resolution_duration := none }]).get? 0 =
      some { repo_full := "o/r", n_openrank_end := none,
             n_openrank_delta := none, n_issue_response_time := none,
             n_backlog_end := none, n_issue_resolution_duration := none,
             n_pr_response_time := none, n_pr_resolution_duration := none,
             health_score := none, health_level := "红" } ∧
    ({ repo_full := "o/r", n_openrank_end := none,
       n_openrank_delta := none, n_issue_response_time := none,
       n_backlog_end := none, n_issue_resolution_duration := none,
       n_pr_response_time := none, n_pr_resolution_duration := none,
       health_score := none, health_level := "红" } : ScoredRow).health_score
      = none :=
  ⟨by decide,
   (C3_health_score_nulls
      [{ repo_full := "o/r", openrank_end := none, openrank_start := none,
         openrank_delta := none, issue_response_time := none,
         issue_resolution_duration := none, backlog_end := none,
         change_requests := none, change_request_response_time := none,
         change_request_resolution_duration := none }] 0
      { repo_full := "o/r", n_openrank_end := none,
        n_openrank_delta := none, n_issue_response_time := none,
        n_backlog_end := none, n_issue_resolution_duration := none,
        n_pr_response_time := none, n_pr_resolution_duration := none,
        health_score := none, health_level := "红" }
      (by decide)).1 (Or.inl (by decide))⟩

/-- C10: a snapshot row whose health_score is null — in particular one with
a null weighted normalized column — is classified "红" by health_level,
because both NaN threshold comparisons are False; there is no separate
'no opinion' level. -/
theorem C10_null_score_red (snap : List SnapRow) (i : ℕ) (row : ScoredRow)
    (h : (compute_health_score snap).get? i = some row) :
    (row.health_score = none → row.health_level = "红") ∧
    ((row.n_openrank_end = none ∨ row.n_openrank_delta = none ∨
        row.n_issue_response_time = none ∨ row.n_backlog_end = none ∨
        row.n_issue_resolution_duration = none ∨
        row.n_pr_response_time = none ∨ row.n_pr_resolution_duration = none) →
      row.health_level = "红") := by
  have hl := (compute_health_score_get h).2
  constructor
  · intro hs
    rw [hl, hs]
    rfl
  · intro hn
    rw [hl, health_score_none_of_any_none h hn]
    rfl

theorem C10_witness :
    ({ repo_full := "o/r", n_openrank_end := none,
       n_openrank_delta := none, n_issue_response_time := none,
       n_backlog_end := none, n_issue_resolution_duration := none,
       n_pr_response_time := none, n_pr_resolution_duration := none,
       health_score := none, health_level := "红" } : ScoredRow).health_level
      = "红" :=
  (C10_null_score_red
    [{ repo_full := "o/r", openrank_end := none, openrank_start := none,
       openrank_delta := none, issue_response_time := none,
       issue_resolution_duration := none, backlog_end := none,
       change_requests := none, change_request_response_time := none,
       change_request_resolution_duration := none }] 0 _ (by decide)).1 (by decide)

/-- C4: the alert rules fire as specified — issue_response_time 15 gives
exactly the red alert with threshold 14, 8 gives exactly the yellow alert
with threshold 7, 5 gives none; backlog 60 gives exactly the red backlog
alert with threshold 50, -5 gives none; each rule emits at most one alert
per merged repository row, so a row contributes at most two alert rows;
and build_alerts is exactly rule 1 over the non-null-response rows followed
by rule 2 over the non-null-backlog rows. -/
theorem C4_alert_rules (em : String) (r : IssM) :
    (r.issue_response_time = some 15 → ruleResponse em r =
      [{ repo_full := r.repo_full, month := em, alert_type := "Issue首响过慢",
         severity := "红", metric := "issue_response_time", value := 15,
         threshold := 14, reason := "首响时间>14天，建议建立 triage 机制" }]) ∧
    (r.issue_response_time = some 8 → ruleResponse em r =
      [{ repo_full := r.repo_full, month := em, alert_type := "Issue首响偏慢",
         severity := "黄", metric := "issue_response_time", value := 8,
         threshold := 7, reason := "首响时间>7天，建议增加值班/标签分流" }]) ∧
    (r.issue_response_time = some 5 → ruleResponse em r = []) ∧
    (r.backlog_end = some 60 → ruleBacklog em r =
      [{ repo_full := r.repo_full, month := em, alert_type := "Issue积压严重",
         severity := "红", metric := "backlog_end", value := 60,
         threshold := 50, reason := "新增-关闭>50，积压上升" }]) ∧
    (r.backlog_end = some (-5) → ruleBacklog em r = []) ∧
    ((ruleResponse em r).length ≤ 1 ∧ (ruleBacklog em r).length ≤ 1 ∧
      (ruleResponse em r ++ ruleBacklog em r).length ≤ 2) ∧
    (∀ il orl, build_alerts il orl em =
      ((mergedIss il orl em).filter
        (fun x => x.issue_response_time.isSome)).flatMap (ruleResponse em) ++
      ((mergedIss il orl em).filter
        (fun x => x.backlog_end.isSome)).flatMap (ruleBacklog em)) := by
  have hr1 : (ruleResponse em r).length ≤ 1 := by
    unfold ruleResponse
    cases r.issue_response_time with
    | none => simp
    | some v =>
      by_cases h14 : (14:ℚ) < v
      · simp [h14]
      · by_cases h7 : (7:ℚ) < v
        · simp [h14, h7]
        · simp [h14, h7]
  have hr2 : (ruleBacklog em r).length ≤ 1 := by
    unfold ruleBacklog
    cases r.backlog_end with
    | none => simp
    | some v =>
      by_cases h50 : (50:ℚ) < v
      · simp [h50]
      · by_cases h10 : (10:ℚ) < v
        · simp [h50, h10]
        · simp [h50, h10]
  refine ⟨?_, ?_, ?_, ?_, ?_, ⟨hr1, hr2, ?_⟩, fun il orl => rfl⟩
  · intro hv
    unfold ruleResponse
    rw [hv]
    norm_num
  · intro hv
    unfold ruleResponse
    rw [hv]
    norm_num
  · intro hv
    unfold ruleResponse
    rw [hv]
    norm_num
  · intro hv
    unfold ruleBacklog
    rw [hv]
    norm_num
  · intro hv
    unfold ruleBacklog
    rw [hv]
    norm_num
  · rw [List.length_append]
    omega

theorem C4_witness :
    ruleResponse "2023-03"
      { repo_full := "o/r", month := "2023-03", issues_new := some 20,
        issues_closed := some 1, issue_response_time := some 15,
        issue_resolution_duration := none, openrank_end := none,
        backlog_end := some 19 } =
      [{ repo_full := "o/r", month := "2023-03", alert_type := "Issue首响过慢",
         severity := "红", metric := "issue_response_time", value := 15,
         threshold := 14, reason := "首响时间>14天，建议建立 triage 机制" }] :=
  (C4_alert_rules "2023-03"
    { repo_full := "o/r", month := "2023-03", issues_new := some 20,
      issues_closed := some 1, issue_response_time := some 15,
      issue_resolution_duration := none, openrank_end := none,
      backlog_end := some 19 }).1 rfl

theorem C6_witness :
    (build_end_snapshot
        [{ repo_full := "o/r", org := "o", repo := "r", month := "2023-03",
           openrank := some 10 }] [] [] "2023-03" "2020-01").map
      (fun s => s.repo_full) =
    (([{ repo_full := "o/r", org := "o", repo := "r", month := "2023-03",
         openrank := some 10 }] : List ORRow).filter
      (fun r => decide (r.month = "2023-03"))).map (fun r => r.repo_full) :=
  (C6_snapshot_assembler
    [{ repo_full := "o/r", org := "o", repo := "r", month := "2023-03",
       openrank := some 10 }] [] [] "2023-03" "2020-01"
    (fun _ _ => List.countP_le_length _)
    (fun _ _ => by simp)
    (fun _ _ => by simp)).1
